import Mathlib

/-!
Verification development for the sm-chat repository.

The repository's core is `app/routers/chat.py`: a WebSocket chat relay with a
`ConnectionManager` (per-room connection sets plus one Redis listener task per
occupied room), a WebSocket endpoint `chat_endpoint` (token check, membership
check, ingress loop persisting each frame and publishing it to the room's Redis
channel), and three HTTP routes (`create_chat`, `list_chats`,
`get_chat_history`).

The embedding below models each of these pieces faithfully from the source.
`app/models.py` (the ORM declarations for `User`, `Chat`, `Message`) is not
part of the provided sources; the record types carrying its fields are
modelled from the spec's data-model section and are marked as such.
-/

namespace SmChat

/-- Modelled from the spec: `app/models.py` is absent from the sources; the
spec's data model says a Message carries an identifier (assigned by the store
at write time), room identifier, sender identity, opaque text content, and a
timestamp. Timestamps are modelled as naturals. -/
structure Msg where
  id : Nat
  chat_id : String
  sender : String
  content : String
  timestamp : Nat
deriving DecidableEq, Repr

/-- The canonical payload published to a room's Redis channel by the ingress
loop of `chat_endpoint`: `{"id": ..., "sender": ..., "content": ...,
"timestamp": ...}` (chat.py lines 117-122). -/
structure Payload where
  id : Nat
  sender : String
  content : String
  timestamp : Nat
deriving DecidableEq, Repr

/-! ### Ingress loop of `chat_endpoint` (chat.py lines 109-123)

Per inbound frame the code builds a `Message`, runs `db.add` + `db.commit`
(the commit assigns `message.id` and `message.timestamp`), then publishes the
canonical payload to `chat_channel:{chat_id}`.  A store failure raises out of
`db.commit`; nothing catches it inside the loop, so the loop ends there.  The
store is an external collaborator; its outcome for each frame is an input to
the model: `some (i, t)` means the commit succeeded assigning id `i` and
timestamp `t`, `none` means the commit raised. -/

/-- Observable events of one run of the ingress loop. -/
inductive InEvent
  | persist (id ts : Nat)
  | publish (channel : String) (payload : Payload)
deriving DecidableEq, Repr

/-- The trace of store/broker events produced by the `while True` ingress loop
of `chat_endpoint` on a list of inbound frames, each frame paired with its
store outcome.  On a commit failure the exception propagates: the loop emits
nothing for that frame and processes no later frame. -/
def ingressLoop (chat_id sender : String)
    (frames : List (String × Option (Nat × Nat))) : List InEvent :=
  match frames with
  | [] => []
  | (data, res) :: rest =>
    match res with
    | none => []
    | some (i, t) =>
      InEvent.persist i t ::
      InEvent.publish ("chat_channel:" ++ chat_id)
        { id := i, sender := sender, content := data, timestamp := t } ::
      ingressLoop chat_id sender rest

/-! ### `ConnectionManager.broadcast` (chat.py lines 57-61)

The loop `for connection in self.rooms[chat_id]: await connection.send_text(message)`
has no exception handling: the first failing send raises out of the loop.
Connections are identified by naturals; `conns` is the room's membership in
iteration order and `sendOk c` tells whether `send_text` on `c` succeeds.
The result is the list of connections actually delivered to, paired with the
connection whose send raised (`none` when every send succeeded).  The method
never mutates `self.rooms`, so no registry state appears here. -/
def broadcast (conns : List Nat) (sendOk : Nat → Bool) : List Nat × Option Nat :=
  match conns with
  | [] => ([], none)
  | c :: rest =>
    if sendOk c then
      let r := broadcast rest sendOk
      (c :: r.1, r.2)
    else ([], some c)

/-! ### Exit paths of the ingress loop (chat.py lines 108-125)

The `try` block around the loop has a single handler, `except
WebSocketDisconnect`, which calls `manager.disconnect`.  There is no `finally`
and no other handler: a commit failure, a publish failure, or task
cancellation propagates without deregistering the connection. -/

/-- The ways control can leave the `Active` ingress loop. -/
inductive ExitCause
  | clientDisconnect
  | persistFailure
  | publishFailure
  | cancelled
deriving DecidableEq, Repr

/-- How many times `manager.disconnect` runs when the ingress loop of
`chat_endpoint` exits with the given cause (chat.py lines 124-125): only the
`WebSocketDisconnect` handler calls it. -/
def disconnectCallsOnExit (c : ExitCause) : Nat :=
  match c with
  | .clientDisconnect => 1
  | .persistFailure => 0
  | .publishFailure => 0
  | .cancelled => 0

/-! ### `ConnectionManager` state (chat.py lines 24-55)

`self.rooms : Dict[str, Set[WebSocket]]` and `self.redis_tasks : Dict[str,
asyncio.Task]`.  WebSockets are identified by naturals; tasks are identified
by the value of a fresh-task counter so that distinct `asyncio.create_task`
calls yield distinct task identities.  Python dicts become functions to
`Option`; a key is "in" the dict when the function returns `some`. -/
structure ConnectionManager where
  rooms : String → Option (Finset Nat)
  redisTasks : String → Option Nat
  nextTaskId : Nat

/-- The freshly constructed manager: both dicts empty (chat.py lines 27-33). -/
def ConnectionManager.init : ConnectionManager :=
  { rooms := fun _ => none, redisTasks := fun _ => none, nextTaskId := 0 }

/-- Method `connect` of `ConnectionManager` (chat.py lines 35-46): accept, add the socket
to the room's set (creating it when absent), and if no Redis listener task
exists for the room, create one. -/
def ConnectionManager.connect (s : ConnectionManager) (chat_id : String)
    (ws : Nat) : ConnectionManager :=
  let roomSet := (s.rooms chat_id).getD ∅
  let rooms' := fun k => if k = chat_id then some (insert ws roomSet) else s.rooms k
  match s.redisTasks chat_id with
  | some _ => { s with rooms := rooms' }
  | none =>
    { rooms := rooms'
      redisTasks := fun k => if k = chat_id then some s.nextTaskId else s.redisTasks k
      nextTaskId := s.nextTaskId + 1 }

/-- Method `disconnect` of `ConnectionManager` (chat.py lines 48-55): if the room is known,
discard the socket; if the room's set became empty, delete the room entry,
cancel the room's Redis task and delete its entry. -/
def ConnectionManager.disconnect (s : ConnectionManager) (chat_id : String)
    (ws : Nat) : ConnectionManager :=
  match s.rooms chat_id with
  | none => s
  | some conns =>
    let conns' := conns.erase ws
    if conns' = ∅ then
      { rooms := fun k => if k = chat_id then none else s.rooms k
        redisTasks := fun k => if k = chat_id then none else s.redisTasks k
        nextTaskId := s.nextTaskId }
    else
      { s with rooms := fun k => if k = chat_id then some conns' else s.rooms k }

/-- A sequential history of register/unregister calls on the manager. -/
inductive CMOp
  | connect (chat_id : String) (ws : Nat)
  | disconnect (chat_id : String) (ws : Nat)
deriving DecidableEq, Repr

/-- Run a sequence of `connect`/`disconnect` operations on the manager. -/
def runCM (s : ConnectionManager) : List CMOp → ConnectionManager
  | [] => s
  | CMOp.connect c w :: rest => runCM (s.connect c w) rest
  | CMOp.disconnect c w :: rest => runCM (s.disconnect c w) rest

/-- The local connection count of a room: the size of `self.rooms[chat_id]`,
zero when the room is absent. -/
def connCount (s : ConnectionManager) (r : String) : Nat :=
  ((s.rooms r).getD ∅).card

/-! ### Handshake of `chat_endpoint` (chat.py lines 77-106)

Order of operations in the source: read `token` from the query params and
close with code 1008 when missing; `verify_token` and close with 1008 on
`HTTPException`; create a Redis connection, a pubsub, and subscribe it to
`chat_channel:{chat_id}`; load the user and its chats from the database; if
the user row is missing or `chat_id` is not among the user's chats, call
`websocket.close()` — Starlette's default close code 1000 — and return;
otherwise `manager.connect` and enter the ingress loop.  Token verification
and the membership table are external collaborators, passed as oracles:
`verify t = some sub` means the token decodes to subject `sub`, `none` means
`verify_token` raised; `userChats sub` is the chat-id list of the user row,
`none` when no user row exists. -/

/-- Observable events of the handshake. -/
inductive HsEvent
  | subscribe (channel : String)
  | close (code : Nat)
  | register (chat_id : String)
  | enterLoop
deriving DecidableEq, Repr

/-- The event trace of `chat_endpoint` up to entering the ingress loop. -/
def chat_endpoint_handshake (chat_id : String) (token : Option String)
    (verify : String → Option String)
    (userChats : String → Option (List String)) : List HsEvent :=
  match token with
  | none => [HsEvent.close 1008]
  | some t =>
    match verify t with
    | none => [HsEvent.close 1008]
    | some sub =>
      HsEvent.subscribe ("chat_channel:" ++ chat_id) ::
      match userChats sub with
      | none => [HsEvent.close 1000]
      | some cs =>
        if chat_id ∈ cs then [HsEvent.register chat_id, HsEvent.enterLoop]
        else [HsEvent.close 1000]

/-! ### Subscriptions visible on a room's channel

Two kinds of Redis subscriptions reach `chat_channel:{chat_id}` in the source:
the pubsub created per connection in the handshake (chat.py lines 94-96),
which no code path ever unsubscribes or closes, and the pubsub of the
manager's per-room listener task (`listen_to_redis`, lines 63-71), which lives
exactly as long as the task.  `endpointSubs` counts the former per channel
name; the latter is derived from `redisTasks`. -/
structure SysState where
  cm : ConnectionManager
  endpointSubs : String → Nat

/-- The initial system: fresh manager, no subscriptions. -/
def SysState.init : SysState :=
  { cm := ConnectionManager.init, endpointSubs := fun _ => 0 }

/-- A client-visible operation on the whole system. -/
inductive SysOp
  | clientConnect (chat_id : String) (token : Option String) (ws : Nat)
  | clientDisconnect (chat_id : String) (ws : Nat)
deriving DecidableEq, Repr

/-- One system step: a connection attempt runs the handshake of
`chat_endpoint` (its subscribe event adds one never-released per-connection
subscription; its register event runs `manager.connect`), and a client
disconnect of an active connection runs `manager.disconnect` via the
`WebSocketDisconnect` handler. -/
def sysStep (verify : String → Option String)
    (userChats : String → Option (List String)) (s : SysState) :
    SysOp → SysState
  | SysOp.clientConnect chat_id token ws =>
    let tr := chat_endpoint_handshake chat_id token verify userChats
    { cm := if HsEvent.register chat_id ∈ tr then s.cm.connect chat_id ws else s.cm
      endpointSubs := fun ch =>
        if HsEvent.subscribe ch ∈ tr then s.endpointSubs ch + 1
        else s.endpointSubs ch }
  | SysOp.clientDisconnect chat_id ws =>
    { s with cm := s.cm.disconnect chat_id ws }

/-- Run a sequence of system operations from a state. -/
def runSys (verify : String → Option String)
    (userChats : String → Option (List String)) (s : SysState) :
    List SysOp → SysState
  | [] => s
  | op :: rest => runSys verify userChats (sysStep verify userChats s op) rest

/-- Number of active Redis subscriptions on room `room`'s channel: the
per-connection pubsubs plus the listener task's pubsub when the task exists. -/
def activeSubs (s : SysState) (room : String) : Nat :=
  s.endpointSubs ("chat_channel:" ++ room) +
    (if (s.cm.redisTasks room).isSome then 1 else 0)

/-- Number of manager-owned listener subscriptions for a room: one per entry
of `redis_tasks`, which is a dict and holds at most one task per room. -/
def managerListeners (s : SysState) (room : String) : Nat :=
  if (s.cm.redisTasks room).isSome then 1 else 0

/-! ### `get_chat_history` (chat.py lines 206-230)

`select(Message).where(chat_id == ...).order_by(timestamp.desc()).limit(limit)`;
404 when the result list is empty, else the payload projection.  The database
table is a list of `Msg`; `ORDER BY timestamp DESC` is a sort by the
newest-first relation `tsGe`. -/

/-- Newest-first comparison used by `ORDER BY Message.timestamp DESC`. -/
def tsGe (a b : Msg) : Prop := b.timestamp ≤ a.timestamp

instance : DecidableRel tsGe := fun a b => Nat.decLe b.timestamp a.timestamp

instance : IsTotal Msg tsGe := ⟨fun a b => Nat.le_total b.timestamp a.timestamp⟩

instance : IsTrans Msg tsGe := ⟨fun _ _ _ h1 h2 => le_trans h2 h1⟩

/-- The history route: filter the table to the room, sort newest-first, take
`limit` rows; 404 exactly when that query result is empty, else return the
per-message payloads. -/
def get_chat_history (chat_id : String) (limit : Nat) (db : List Msg) :
    Except Nat (List Payload) :=
  let msgs := ((db.filter fun m => m.chat_id == chat_id).insertionSort tsGe).take limit
  if msgs.isEmpty then Except.error 404
  else Except.ok (msgs.map fun m =>
    { id := m.id, sender := m.sender, content := m.content, timestamp := m.timestamp })

/-- An HTTP request to the history route together with the caller's identity
and room membership.  The route's signature in the source takes only
`chat_id`, `limit` and the database session — no authentication dependency —
so the handler below ignores the caller fields. -/
structure HistoryRequest where
  caller : String
  callerIsParticipant : Bool
  chat_id : String
  limit : Nat
deriving DecidableEq, Repr

/-- The history route as invoked by an arbitrary caller. -/
def handle_get_chat_history (req : HistoryRequest) (db : List Msg) :
    Except Nat (List Payload) :=
  get_chat_history req.chat_id req.limit db

/-! ### `create_chat` (chat.py lines 132-157)

Looks up the caller (`user["sub"]`) and the requested participant in the user
table; 400 when either row is missing; otherwise builds `Chat(name="")`,
appends exactly the two user rows to its participants, commits (the store
assigns a fresh chat id) and returns the id.  The commented-out duplicate
check (lines 138-140) is dead code: no duplicate check runs. -/

/-- Modelled from the spec: a Chat row of the absent `app/models.py` —
identifier, name, participant identities. -/
structure ChatRec where
  id : Nat
  name : String
  participants : List String
deriving DecidableEq, Repr

/-- The relational store as `create_chat` sees it: registered user ids, chat
rows, and the store's fresh-id counter for chats. -/
structure ChatDB where
  users : List String
  chats : List ChatRec
  nextChatId : Nat
deriving DecidableEq, Repr

/-- The chat-creation route: 400 unless both identities are registered users,
else append a new chat with empty name and exactly the two participants,
returning the fresh chat id. -/
def create_chat (callerSub participantId : String) (db : ChatDB) :
    Except Nat (ChatDB × Nat) :=
  if callerSub ∈ db.users ∧ participantId ∈ db.users then
    Except.ok
      ({ users := db.users
         chats := db.chats ++
           [{ id := db.nextChatId, name := "", participants := [callerSub, participantId] }]
         nextChatId := db.nextChatId + 1 }, db.nextChatId)
  else Except.error 400

/-! ## Theorems -/

/-- Every publish event in an ingress trace is immediately preceded by the
persist event that assigned the published id and timestamp. -/
lemma ingressLoop_publish_preceded (chat_id sender : String)
    (frames : List (String × Option (Nat × Nat))) :
    ∀ (k : Nat) (ch : String) (pl : Payload),
      (ingressLoop chat_id sender frames).get? k = some (InEvent.publish ch pl) →
      0 < k ∧ (ingressLoop chat_id sender frames).get? (k - 1) =
        some (InEvent.persist pl.id pl.timestamp) := by
  induction frames with
  | nil => intro k ch pl h; simp [ingressLoop] at h
  | cons f rest ih =>
    obtain ⟨data, res⟩ := f
    cases res with
    | none => intro k ch pl h; simp [ingressLoop] at h
    | some it =>
      obtain ⟨i, t⟩ := it
      intro k ch pl h
      match k with
      | 0 => simp [ingressLoop] at h
      | 1 =>
        refine ⟨Nat.one_pos, ?_⟩
        simp only [ingressLoop, List.get?] at h ⊢
        obtain ⟨-, hpl⟩ := Option.some.inj h |> InEvent.publish.inj
        rw [← hpl]
      | (n + 2) =>
        simp only [ingressLoop, List.get?] at h
        obtain ⟨hn, hprev⟩ := ih n ch pl h
        obtain ⟨m, rfl⟩ := Nat.exists_eq_add_of_lt hn
        refine ⟨Nat.succ_pos _, ?_⟩
        simpa [ingressLoop] using hprev

/-- A frame whose commit raises truncates the ingress trace: nothing of that
frame, or of any later frame, is emitted. -/
lemma ingressLoop_stops_at_failure (chat_id sender : String) :
    ∀ (pre : List (String × Option (Nat × Nat))) (data : String)
      (post : List (String × Option (Nat × Nat))),
      ingressLoop chat_id sender (pre ++ (data, none) :: post) =
        ingressLoop chat_id sender pre := by
  intro pre
  induction pre with
  | nil => intro data post; simp [ingressLoop]
  | cons f rest ih =>
    intro data post
    obtain ⟨d, r⟩ := f
    cases r with
    | none => simp [ingressLoop]
    | some it =>
      obtain ⟨i, t⟩ := it
      simp [ingressLoop, ih]

/-- C1: in the ingress loop of `chat_endpoint`, each frame's message is
persisted (commit assigning its id and timestamp) strictly before its
canonical payload is published to the room's channel, and a frame whose
persistence fails is never published: the trace ends before it. -/
theorem c1_persist_before_publish (chat_id sender : String)
    (frames : List (String × Option (Nat × Nat))) :
    (∀ (k : Nat) (ch : String) (pl : Payload),
      (ingressLoop chat_id sender frames).get? k = some (InEvent.publish ch pl) →
      0 < k ∧ (ingressLoop chat_id sender frames).get? (k - 1) =
        some (InEvent.persist pl.id pl.timestamp)) ∧
    (∀ (pre : List (String × Option (Nat × Nat))) (data : String)
      (post : List (String × Option (Nat × Nat))),
      frames = pre ++ (data, none) :: post →
      ingressLoop chat_id sender frames = ingressLoop chat_id sender pre) := by
  constructor
  · exact ingressLoop_publish_preceded chat_id sender frames
  · intro pre data post hfr
    rw [hfr]
    exact ingressLoop_stops_at_failure chat_id sender pre data post

/-- C1 witness: on the single frame "hi" persisted with id 2 and timestamp 7,
the publish at position 1 is preceded by the persist at position 0. -/
theorem c1_persist_before_publish_witness :
    0 < 1 ∧ (ingressLoop "r1" "alice" [("hi", some (2, 7))]).get? 0 =
      some (InEvent.persist 2 7) := by
  have h := (c1_persist_before_publish "r1" "alice" [("hi", some (2, 7))]).1 1
    "chat_channel:r1" { id := 2, sender := "alice", content := "hi", timestamp := 7 }
    (by decide)
  exact h

/-- C2 counterexample: in room membership iterated as [1, 2] where the send to
connection 1 raises, the broadcast loop aborts at connection 1 and connection
2 — registered and healthy — never receives the message, contradicting the
claim that delivery continues to every remaining registered connection. -/
theorem c2_counterexample :
    (broadcast [1, 2] fun c => c != 1).2 = some 1 ∧
    2 ∉ (broadcast [1, 2] fun c => c != 1).1 := by decide

/-- C2 amended: `ConnectionManager.broadcast` catches nothing — delivery
reaches exactly the connections before the first failing one in iteration
order, the first failing connection aborts the loop (and its exception
propagates to the caller), and no connection is deregistered by `broadcast`,
which never mutates the registry. -/
theorem c2_broadcast_aborts_at_first_failure (conns : List Nat)
    (sendOk : Nat → Bool) :
    broadcast conns sendOk =
      (conns.takeWhile sendOk, (conns.dropWhile sendOk).head?) := by
  induction conns with
  | nil => rfl
  | cons c rest ih =>
    cases h : sendOk c with
    | true => simp [broadcast, h, List.takeWhile_cons, List.dropWhile_cons, ih]
    | false => simp [broadcast, h, List.takeWhile_cons, List.dropWhile_cons]

/-- C3 counterexample: when the ingress loop exits because the persistence
commit raised, `manager.disconnect` runs zero times, not once — the `try`
block catches only `WebSocketDisconnect` and has no `finally`. -/
theorem c3_counterexample :
    disconnectCallsOnExit ExitCause.persistFailure = 0 ∧ (0 : Nat) ≠ 1 := by
  decide

/-- C3 amended: deregistration runs exactly once when the ingress loop exits
by normal client disconnect (`WebSocketDisconnect`), and zero times on every
other exit path — persistence failure, publish failure, or cancellation. -/
theorem c3_disconnect_only_on_client_disconnect (c : ExitCause) :
    disconnectCallsOnExit c =
      if c = ExitCause.clientDisconnect then 1 else 0 := by
  cases c <;> rfl

/-- C4 counterexample: a connection with a valid token for subject "u" whose
chat list is ["r2"] (so not a participant of "r1") is closed by
`websocket.close()` with the default code 1000, not the policy-violation code
1008 used for authentication failures. -/
theorem c4_counterexample :
    chat_endpoint_handshake "r1" (some "tok") (fun _ => some "u")
        (fun _ => some ["r2"]) =
      [HsEvent.subscribe "chat_channel:r1", HsEvent.close 1000] ∧
    HsEvent.close 1008 ∉ chat_endpoint_handshake "r1" (some "tok")
      (fun _ => some "u") (fun _ => some ["r2"]) := by decide

/-- C4 amended: a connection attempt by an authenticated identity that is not
a listed participant of the target room (user row missing or room not among
its chats) is closed with code 1000 — the bare `websocket.close()` default —
and with no other close code; unlike authentication failures, which use 1008. -/
theorem c4_nonmember_closed_with_default_code (chat_id t sub : String)
    (verify : String → Option String)
    (userChats : String → Option (List String))
    (hv : verify t = some sub)
    (hm : ∀ cs, userChats sub = some cs → chat_id ∉ cs) :
    HsEvent.close 1000 ∈
      chat_endpoint_handshake chat_id (some t) verify userChats ∧
    ∀ code, HsEvent.close code ∈
      chat_endpoint_handshake chat_id (some t) verify userChats →
      code = 1000 := by
  cases hu : userChats sub with
  | none => simp [chat_endpoint_handshake, hv, hu]
  | some cs =>
    have hni : chat_id ∉ cs := hm cs hu
    simp [chat_endpoint_handshake, hv, hu, hni]

/-- C4 amended witness: concrete instance — subject "u" with chats
["r2", "r3"] attempting room "r1" receives close code 1000. -/
theorem c4_nonmember_closed_with_default_code_witness :
    HsEvent.close 1000 ∈ chat_endpoint_handshake "r1" (some "tok")
      (fun _ => some "u") (fun _ => some ["r2", "r3"]) := by
  refine (c4_nonmember_closed_with_default_code "r1" "tok" "u"
    (fun _ => some "u") (fun _ => some ["r2", "r3"]) rfl ?_).1
  intro cs hcs
  obtain rfl : (["r2", "r3"] : List String) = cs := Option.some.inj hcs
  decide

/-- C5 counterexample: an authenticated identity with no user row (so room
authorization fails) still causes a Redis subscription to the room's channel,
created at chat.py lines 94-96 before the membership check — contradicting
the claim that no broker channel subscription is ever created on behalf of a
connection that fails authorization. -/
theorem c5_counterexample :
    HsEvent.subscribe "chat_channel:r1" ∈
      chat_endpoint_handshake "r1" (some "tok") (fun _ => some "u")
        (fun _ => none) ∧
    HsEvent.enterLoop ∉
      chat_endpoint_handshake "r1" (some "tok") (fun _ => some "u")
        (fun _ => none) := by decide

/-- C5 amended: a connection that does not reach the ingress loop is never
registered; when its token is missing or invalid no channel subscription is
created; but whenever the token verifies, a per-connection subscription to
the room's channel is created before the membership check, so an identity
failing room authorization does cause a subscription. -/
theorem c5_failed_auth_never_registered (chat_id : String)
    (token : Option String) (verify : String → Option String)
    (userChats : String → Option (List String))
    (hfail : HsEvent.enterLoop ∉
      chat_endpoint_handshake chat_id token verify userChats) :
    (∀ r, HsEvent.register r ∉
      chat_endpoint_handshake chat_id token verify userChats) ∧
    ((token = none ∨ ∃ t, token = some t ∧ verify t = none) →
      ∀ ch, HsEvent.subscribe ch ∉
        chat_endpoint_handshake chat_id token verify userChats) ∧
    (∀ t sub, token = some t → verify t = some sub →
      HsEvent.subscribe ("chat_channel:" ++ chat_id) ∈
        chat_endpoint_handshake chat_id token verify userChats) := by
  cases token with
  | none => simp [chat_endpoint_handshake]
  | some t =>
    cases hv : verify t with
    | none =>
      refine ⟨by simp [chat_endpoint_handshake, hv],
        by simp [chat_endpoint_handshake, hv], ?_⟩
      intro t1 sub ht hvs
      obtain rfl : t = t1 := Option.some.inj ht
      rw [hv] at hvs
      exact absurd hvs (by simp)
    | some sub =>
      cases hu : userChats sub with
      | none => simp [chat_endpoint_handshake, hv, hu]
      | some cs =>
        by_cases hin : chat_id ∈ cs
        · exfalso
          apply hfail
          simp [chat_endpoint_handshake, hv, hu, hin]
        · simp [chat_endpoint_handshake, hv, hu, hin]

/-- C5 amended witness: three concrete instances — an authenticated identity
without a user row is never registered; a missing token creates no
subscription; an authenticated identity without a user row still triggers
the channel subscription. -/
theorem c5_failed_auth_never_registered_witness :
    HsEvent.register "r1" ∉
      chat_endpoint_handshake "r1" (some "tok") (fun _ => some "u")
        (fun _ => none) ∧
    HsEvent.subscribe "chat_channel:r1" ∉
      chat_endpoint_handshake "r1" none (fun _ => some "u") (fun _ => none) ∧
    HsEvent.subscribe ("chat_channel:" ++ "r1") ∈
      chat_endpoint_handshake "r1" (some "tok") (fun _ => some "u")
        (fun _ => none) := by
  refine ⟨?_, ?_, ?_⟩
  · exact (c5_failed_auth_never_registered "r1" (some "tok") (fun _ => some "u")
      (fun _ => none) (by decide)).1 "r1"
  · exact (c5_failed_auth_never_registered "r1" none (fun _ => some "u")
      (fun _ => none) (by decide)).2.1 (Or.inl rfl) "chat_channel:r1"
  · exact (c5_failed_auth_never_registered "r1" (some "tok") (fun _ => some "u")
      (fun _ => none) (by decide)).2.2 "tok" "u" rfl rfl

/-- Inductive invariant of the manager: room sets present in the dict are
nonempty, a listener task exists exactly for occupied rooms, and every live
task id is below the fresh-task counter. -/
def CMInv (s : ConnectionManager) : Prop :=
  (∀ r c, s.rooms r = some c → c.Nonempty) ∧
  (∀ r, (s.redisTasks r).isSome ↔ 0 < connCount s r) ∧
  (∀ r t, s.redisTasks r = some t → t < s.nextTaskId)

/-- The freshly constructed manager satisfies the invariant. -/
lemma cmInv_init : CMInv ConnectionManager.init := by
  refine ⟨fun r c hc => ?_, fun r => ?_, fun r t hrt => ?_⟩
  · simp [ConnectionManager.init] at hc
  · simp [ConnectionManager.init, connCount]
  · simp [ConnectionManager.init] at hrt

/-- Operation `connect` preserves the invariant. -/
lemma cmInv_connect (s : ConnectionManager) (chat_id : String) (ws : Nat)
    (h : CMInv s) : CMInv (s.connect chat_id ws) := by
  obtain ⟨h1, h2, h3⟩ := h
  cases ht : s.redisTasks chat_id with
  | some tk =>
    refine ⟨fun r c hc => ?_, fun r => ?_, fun r t hrt => ?_⟩
    · simp only [ConnectionManager.connect, ht] at hc
      split at hc
      · obtain rfl := Option.some.inj hc
        exact Finset.insert_nonempty _ _
      · exact h1 r c hc
    · by_cases hr : r = chat_id
      · subst hr
        simp [ConnectionManager.connect, ht, connCount, Finset.card_pos,
          Finset.insert_nonempty]
      · simp only [ConnectionManager.connect, ht]
        simpa [connCount, hr] using h2 r
    · simp only [ConnectionManager.connect, ht] at hrt ⊢
      exact h3 r t hrt
  | none =>
    refine ⟨fun r c hc => ?_, fun r => ?_, fun r t hrt => ?_⟩
    · simp only [ConnectionManager.connect, ht] at hc
      split at hc
      · obtain rfl := Option.some.inj hc
        exact Finset.insert_nonempty _ _
      · exact h1 r c hc
    · by_cases hr : r = chat_id
      · subst hr
        simp [ConnectionManager.connect, ht, connCount, Finset.card_pos,
          Finset.insert_nonempty]
      · simp only [ConnectionManager.connect, ht]
        simpa [connCount, hr] using h2 r
    · simp only [ConnectionManager.connect, ht] at hrt ⊢
      split at hrt
      · obtain rfl := Option.some.inj hrt
        exact Nat.lt_succ_self _
      · exact Nat.lt_succ_of_lt (h3 r t hrt)

/-- Operation `disconnect` preserves the invariant. -/
lemma cmInv_disconnect (s : ConnectionManager) (chat_id : String) (ws : Nat)
    (h : CMInv s) : CMInv (s.disconnect chat_id ws) := by
  obtain ⟨h1, h2, h3⟩ := h
  cases hr0 : s.rooms chat_id with
  | none =>
    simp only [ConnectionManager.disconnect, hr0]
    exact ⟨h1, h2, h3⟩
  | some conns =>
    by_cases he : conns.erase ws = ∅
    · have hrooms : ∀ r, (s.disconnect chat_id ws).rooms r =
          if r = chat_id then none else s.rooms r := by
        intro r; simp [ConnectionManager.disconnect, hr0, he]
      have htasks : ∀ r, (s.disconnect chat_id ws).redisTasks r =
          if r = chat_id then none else s.redisTasks r := by
        intro r; simp [ConnectionManager.disconnect, hr0, he]
      have hnext : (s.disconnect chat_id ws).nextTaskId = s.nextTaskId := by
        simp [ConnectionManager.disconnect, hr0, he]
      refine ⟨fun r c hc => ?_, fun r => ?_, fun r t hrt => ?_⟩
      · rw [hrooms r] at hc
        by_cases hr : r = chat_id
        · rw [if_pos hr] at hc; cases hc
        · rw [if_neg hr] at hc; exact h1 r c hc
      · rw [htasks r]
        simp only [connCount, hrooms r]
        by_cases hr : r = chat_id
        · simp [hr]
        · simp only [if_neg hr]
          exact h2 r
      · rw [htasks r] at hrt
        rw [hnext]
        by_cases hr : r = chat_id
        · rw [if_pos hr] at hrt; cases hrt
        · rw [if_neg hr] at hrt; exact h3 r t hrt
    · have hrooms : ∀ r, (s.disconnect chat_id ws).rooms r =
          if r = chat_id then some (conns.erase ws) else s.rooms r := by
        intro r; simp [ConnectionManager.disconnect, hr0, he]
      have htasks : ∀ r, (s.disconnect chat_id ws).redisTasks r =
          s.redisTasks r := by
        intro r; simp [ConnectionManager.disconnect, hr0, he]
      have hnext : (s.disconnect chat_id ws).nextTaskId = s.nextTaskId := by
        simp [ConnectionManager.disconnect, hr0, he]
      refine ⟨fun r c hc => ?_, fun r => ?_, fun r t hrt => ?_⟩
      · rw [hrooms r] at hc
        by_cases hr : r = chat_id
        · rw [if_pos hr] at hc
          obtain rfl := Option.some.inj hc
          exact Finset.nonempty_iff_ne_empty.mpr he
        · rw [if_neg hr] at hc; exact h1 r c hc
      · rw [htasks r]
        simp only [connCount, hrooms r]
        by_cases hr : r = chat_id
        · have hroomr : s.rooms r = some conns := by rw [hr]; exact hr0
          have hne : (conns.erase ws).Nonempty :=
            Finset.nonempty_iff_ne_empty.mpr he
          have hcpos : 0 < connCount s r := by
            have hcne : conns.Nonempty := hne.mono (Finset.erase_subset _ _)
            simp [connCount, hroomr, Finset.card_pos, hcne]
          have hts : (s.redisTasks chat_id).isSome := by
            rw [← hr]; exact (h2 r).mpr hcpos
          simp [hr, hts, Finset.card_pos, hne]
        · simp only [if_neg hr]
          exact h2 r
      · rw [htasks r] at hrt
        rw [hnext]
        exact h3 r t hrt

/-- Running any sequence of operations preserves the invariant. -/
lemma cmInv_runCM (ops : List CMOp) :
    ∀ s, CMInv s → CMInv (runCM s ops) := by
  induction ops with
  | nil => intro s h; exact h
  | cons op rest ih =>
    intro s h
    cases op with
    | connect c w => exact ih _ (cmInv_connect s c w h)
    | disconnect c w => exact ih _ (cmInv_disconnect s c w h)

/-- When a room has no listener task, `connect` creates one carrying the
current value of the fresh-task counter. -/
lemma connect_starts_fresh (s : ConnectionManager) (chat_id : String)
    (ws : Nat) (h : s.redisTasks chat_id = none) :
    (s.connect chat_id ws).redisTasks chat_id = some s.nextTaskId := by
  simp [ConnectionManager.connect, h]

/-- C7: after every sequence of connect/disconnect operations, a room's Redis
listener task exists if and only if the room's local connection count is
positive (so the first connect starts it and the last disconnect cancels it);
every live task id is below the fresh-task counter, and a connect on a room
without a task starts a task carrying the counter's current value — hence a
fresh listener distinct from every previously live one. -/
theorem c7_listener_iff_occupied (ops : List CMOp) (r : String) :
    (((runCM ConnectionManager.init ops).redisTasks r).isSome ↔
      0 < connCount (runCM ConnectionManager.init ops) r) ∧
    (∀ t, (runCM ConnectionManager.init ops).redisTasks r = some t →
      t < (runCM ConnectionManager.init ops).nextTaskId) ∧
    (∀ ws, (runCM ConnectionManager.init ops).redisTasks r = none →
      ((runCM ConnectionManager.init ops).connect r ws).redisTasks r =
        some (runCM ConnectionManager.init ops).nextTaskId) := by
  have h := cmInv_runCM ops ConnectionManager.init cmInv_init
  exact ⟨h.2.1 r, fun t => h.2.2 r t,
    fun ws hn => connect_starts_fresh _ r ws hn⟩

/-- C7 witness: after connecting socket 5 to room "r1", the listener task for
"r1" exists; its id 0 is below the counter; and a connect on the fresh
manager starts task 0 for "r1". -/
theorem c7_listener_iff_occupied_witness :
    ((runCM ConnectionManager.init [CMOp.connect "r1" 5]).redisTasks
      "r1").isSome ∧
    (0 : Nat) < (runCM ConnectionManager.init
      [CMOp.connect "r1" 5]).nextTaskId ∧
    ((runCM ConnectionManager.init []).connect "r1" 5).redisTasks "r1" =
      some (runCM ConnectionManager.init []).nextTaskId := by
  refine ⟨?_, ?_, ?_⟩
  · exact (c7_listener_iff_occupied [CMOp.connect "r1" 5] "r1").1.mpr
      (by decide)
  · exact (c7_listener_iff_occupied [CMOp.connect "r1" 5] "r1").2.1 0
      (by decide)
  · exact (c7_listener_iff_occupied [] "r1").2.2 5 (by decide)

/-- C6 counterexample: in the reachable state after one successful connection
to room "r1", two Redis subscriptions are active on `chat_channel:r1` — the
per-connection pubsub created in the handshake (chat.py lines 94-96, never
released) plus the manager's listener pubsub — contradicting the claim that
the count is always 0 or 1. -/
theorem c6_counterexample :
    activeSubs
      (runSys (fun _ => some "u") (fun _ => some ["r1"]) SysState.init
        [SysOp.clientConnect "r1" (some "tok") 7]) "r1" = 2 ∧
    ¬((2 : Nat) = 0 ∨ (2 : Nat) = 1) := by
  constructor
  · rfl
  · decide

/-- C6 amended: the manager owns at most one listener subscription per room in
every reachable state, and `connect` never replaces an existing listener task
(the `chat_id not in self.redis_tasks` guard); the bound 0-or-1 holds only
for manager-owned listeners, not for the total count on the channel, since
each authenticated handshake adds a per-connection subscription that is never
released. -/
theorem c6_manager_listener_at_most_one (verify : String → Option String)
    (userChats : String → Option (List String)) (ops : List SysOp)
    (r : String) :
    managerListeners (runSys verify userChats SysState.init ops) r ≤ 1 ∧
    (∀ (s : ConnectionManager) (chat_id : String) (ws : Nat),
      (s.redisTasks chat_id).isSome →
      (s.connect chat_id ws).redisTasks chat_id = s.redisTasks chat_id) := by
  constructor
  · unfold managerListeners
    split
    · exact le_refl 1
    · exact Nat.zero_le 1
  · intro s chat_id ws hsome
    cases ht : s.redisTasks chat_id with
    | none => rw [ht] at hsome; cases hsome
    | some tk => simp [ConnectionManager.connect, ht]

/-- C6 amended witness: in the state after one successful connection, the
manager owns at most one listener for "r1", and a second connect to "r1" on a
manager that already has a listener leaves the listener entry unchanged. -/
theorem c6_manager_listener_at_most_one_witness :
    managerListeners
      (runSys (fun _ => some "u") (fun _ => some ["r1"]) SysState.init
        [SysOp.clientConnect "r1" (some "tok") 7]) "r1" ≤ 1 ∧
    ((ConnectionManager.init.connect "r1" 5).connect "r1" 6).redisTasks "r1" =
      (ConnectionManager.init.connect "r1" 5).redisTasks "r1" := by
  refine ⟨(c6_manager_listener_at_most_one (fun _ => some "u")
    (fun _ => some ["r1"]) [SysOp.clientConnect "r1" (some "tok") 7] "r1").1,
    (c6_manager_listener_at_most_one (fun _ => some "u")
      (fun _ => some ["r1"]) [] "r1").2
      (ConnectionManager.init.connect "r1" 5) "r1" 6 ?_⟩
  decide

/-- C8 counterexample: with `limit = 0` and a room holding one message, the
history route returns 404 even though the room has messages — so "404 exactly
when the room has no messages" fails. -/
theorem c8_counterexample :
    get_chat_history "r1" 0
      [{ id := 1, chat_id := "r1", sender := "a", content := "hi",
         timestamp := 5 }] = Except.error 404 ∧
    List.filter (fun m : Msg => m.chat_id == "r1")
      [{ id := 1, chat_id := "r1", sender := "a", content := "hi",
         timestamp := 5 }] ≠ [] := by
  constructor
  · rfl
  · decide

/-- The history route answers 404 exactly when the limited query result is
empty: the room has no messages or the limit is zero. -/
lemma get_chat_history_error_iff (chat_id : String) (limit : Nat)
    (db : List Msg) :
    get_chat_history chat_id limit db = Except.error 404 ↔
      db.filter (fun m => m.chat_id == chat_id) = [] ∨ limit = 0 := by
  have hperm :=
    List.perm_insertionSort tsGe (db.filter fun m => m.chat_id == chat_id)
  simp only [get_chat_history]
  split
  next hem =>
    constructor
    · intro _
      rw [List.isEmpty_iff] at hem
      rcases List.take_eq_nil_iff.mp hem with hn | hl
      · exact Or.inr hn
      · rw [hl] at hperm
        exact Or.inl hperm.symm.eq_nil
    · intro _
      rfl
  next hem =>
    constructor
    · intro h
      exact Except.noConfusion h
    · intro hor
      exfalso
      apply hem
      rw [List.isEmpty_iff, List.take_eq_nil_iff]
      rcases hor with hf | hl
      · refine Or.inr ?_
        rw [hf]
        rfl
      · exact Or.inl hl

/-- C8 amended: the history route returns at most `limit` messages for the
room, ordered newest-first by timestamp; it fails with 404 exactly when the
limited query result is empty — the room has no messages or the requested
limit is zero (so with the default limit of 50, exactly when the room has no
messages). -/
theorem c8_history_limit_order_404 (chat_id : String) (limit : Nat)
    (db : List Msg) :
    (∀ l, get_chat_history chat_id limit db = Except.ok l →
      l.length ≤ limit ∧
      List.Sorted (fun p q : Payload => q.timestamp ≤ p.timestamp) l) ∧
    (get_chat_history chat_id limit db = Except.error 404 ↔
      db.filter (fun m => m.chat_id == chat_id) = [] ∨ limit = 0) := by
  refine ⟨?_, get_chat_history_error_iff chat_id limit db⟩
  intro l hl
  have hsorted : List.Sorted tsGe
      (List.insertionSort tsGe (db.filter fun m => m.chat_id == chat_id)) :=
    List.sorted_insertionSort tsGe _
  simp only [get_chat_history] at hl
  split at hl
  · exact Except.noConfusion hl
  · obtain rfl := Except.ok.inj hl
    constructor
    · rw [List.length_map, List.length_take]
      exact min_le_left _ _
    · have hs : List.Sorted tsGe
          ((List.insertionSort tsGe
            (db.filter fun m => m.chat_id == chat_id)).take limit) :=
        List.Pairwise.sublist (List.take_sublist limit _) hsorted
      exact List.pairwise_map.mpr hs

/-- C8 amended witness: on a room with messages at timestamps 5 and 9 and the
default limit 50, the response has at most 50 entries and is newest-first. -/
theorem c8_history_limit_order_404_witness :
    ([{ id := 2, sender := "b", content := "yo", timestamp := 9 },
      { id := 1, sender := "a", content := "hi", timestamp := 5 }] :
        List Payload).length ≤ 50 ∧
    List.Sorted (fun p q : Payload => q.timestamp ≤ p.timestamp)
      [{ id := 2, sender := "b", content := "yo", timestamp := 9 },
       { id := 1, sender := "a", content := "hi", timestamp := 5 }] := by
  exact (c8_history_limit_order_404 "r1" 50
    [{ id := 1, chat_id := "r1", sender := "a", content := "hi",
       timestamp := 5 },
     { id := 2, chat_id := "r1", sender := "b", content := "yo",
       timestamp := 9 }]).1
    [{ id := 2, sender := "b", content := "yo", timestamp := 9 },
     { id := 1, sender := "a", content := "hi", timestamp := 5 }] rfl

/-- C9: the history route takes no authentication dependency and performs no
membership check, so its response is identical for every caller — whether or
not the caller is a participant of the room. -/
theorem c9_history_caller_independent (c1 c2 : String) (p1 p2 : Bool)
    (chat_id : String) (limit : Nat) (db : List Msg) :
    handle_get_chat_history
      { caller := c1, callerIsParticipant := p1, chat_id := chat_id,
        limit := limit } db =
    handle_get_chat_history
      { caller := c2, callerIsParticipant := p2, chat_id := chat_id,
        limit := limit } db := rfl

/-- C10: chat creation fails with 400 exactly when either identity is not a
registered user; otherwise every call appends a new chat with empty name and
exactly the two participants, and two successive calls with the same pair
produce two chats with distinct ids — there is no duplicate check. -/
theorem c10_create_chat_no_duplicate_check (caller participant : String)
    (db : ChatDB) :
    (create_chat caller participant db = Except.error 400 ↔
      caller ∉ db.users ∨ participant ∉ db.users) ∧
    (caller ∈ db.users → participant ∈ db.users →
      ∃ db1 id1 db2 id2,
        create_chat caller participant db = Except.ok (db1, id1) ∧
        db1.chats = db.chats ++
          [{ id := id1, name := "", participants := [caller, participant] }] ∧
        create_chat caller participant db1 = Except.ok (db2, id2) ∧
        db2.chats = db1.chats ++
          [{ id := id2, name := "", participants := [caller, participant] }] ∧
        id1 ≠ id2) := by
  constructor
  · unfold create_chat
    split
    next hmem =>
      constructor
      · intro h
        exact Except.noConfusion h
      · intro hor
        rcases hor with hn | hn
        · exact absurd hmem.1 hn
        · exact absurd hmem.2 hn
    next hmem =>
      simpa using not_and_or.mp hmem
  · intro h1 h2
    have e1 : create_chat caller participant db =
        Except.ok
          ({ users := db.users,
             chats := db.chats ++
               [{ id := db.nextChatId, name := "",
                  participants := [caller, participant] }],
             nextChatId := db.nextChatId + 1 }, db.nextChatId) := by
      unfold create_chat
      rw [if_pos ⟨h1, h2⟩]
    have e2 : create_chat caller participant
        { users := db.users,
          chats := db.chats ++
            [{ id := db.nextChatId, name := "",
               participants := [caller, participant] }],
          nextChatId := db.nextChatId + 1 } =
        Except.ok
          ({ users := db.users,
             chats := (db.chats ++
               [{ id := db.nextChatId, name := "",
                  participants := [caller, participant] }]) ++
               [{ id := db.nextChatId + 1, name := "",
                  participants := [caller, participant] }],
             nextChatId := db.nextChatId + 2 }, db.nextChatId + 1) := by
      unfold create_chat
      rw [if_pos ⟨h1, h2⟩]
    exact ⟨_, db.nextChatId, _, db.nextChatId + 1, e1, rfl, e2, rfl,
      by omega⟩

/-- C10 witness: with registered users "u1" and "u2", creating with the
unregistered "u3" yields 400, and creating the same pair twice yields two
chats with distinct ids. -/
theorem c10_create_chat_no_duplicate_check_witness :
    create_chat "u1" "u3"
      { users := ["u1", "u2"], chats := [], nextChatId := 0 } =
      Except.error 400 ∧
    ∃ db1 id1 db2 id2,
      create_chat "u1" "u2"
        { users := ["u1", "u2"], chats := [], nextChatId := 0 } =
        Except.ok (db1, id1) ∧
      db1.chats = [] ++
        [{ id := id1, name := "", participants := ["u1", "u2"] }] ∧
      create_chat "u1" "u2" db1 = Except.ok (db2, id2) ∧
      db2.chats = db1.chats ++
        [{ id := id2, name := "", participants := ["u1", "u2"] }] ∧
      id1 ≠ id2 := by
  constructor
  · exact (c10_create_chat_no_duplicate_check "u1" "u3"
      { users := ["u1", "u2"], chats := [], nextChatId := 0 }).1.mpr
      (Or.inr (by decide))
  · exact (c10_create_chat_no_duplicate_check "u1" "u2"
      { users := ["u1", "u2"], chats := [], nextChatId := 0 }).2
      (by decide) (by decide)

end SmChat
